import Mathlib

/-!
Verification of the vector-space-model retrieval engine (src/lib.rs).

The Rust source is shallow-embedded as follows.

* f64 values are modelled by the type `F`: an exact extended real line
  (`fin`, `inf`, `ninf`) together with the not-a-number value `nan`.
  The arithmetic operations follow the IEEE-754 rules for NaN and for
  division by zero, which is all the analysed code paths exercise;
  rounding and overflow of finite values are not modelled (finite
  arithmetic is exact).  Rust `f64::log10` and `f64::sqrt` are mapped
  to `Real.logb 10` and `Real.sqrt` on finite positive arguments, with
  the IEEE special cases (negative argument, zero, infinities) spelled
  out.
* `HashSet<String>` iteration order is unspecified in Rust; a hash set
  is therefore modelled as a duplicate-free `List String` holding the
  elements in iteration order, and every operation of the source that
  iterates a freshly built or extended hash set takes that order as an
  explicit parameter, constrained only by `ValidOrder` (it enumerates
  exactly the member set, without duplicates).  `HashMap<String, usize>`
  is an association list with duplicate-free keys.
* The caller-supplied pair (processing_regex, capture) is an opaque
  text transform; it is modelled as a single function field `norm`,
  exactly the role the pair plays in `preprocess`.
* Rust panics (Option::unwrap on a missing key, slice indexing out of
  bounds, and the `partial_cmp(..).unwrap()` inside the sort
  comparator) are modelled by `Option`: a function that can panic
  returns `none` on the panicking executions.
* `Vec::sort_by` is a stable sort.  On score lists free of NaN the
  comparator is a total order, and the unique stable descending
  reordering of a list whose second components (the original corpus
  positions) are strictly increasing is insertion sort under the
  lexicographic relation `descRel` (score descending, then original
  position ascending); `sortStable` uses that characterisation.  When
  the slice has at least two elements and some key is NaN, the
  comparator calls `partial_cmp(..).unwrap()` on an incomparable pair
  at some point (a stable merge sort compares every element at least
  once), so the call panics: `sortStable` returns `none` there.
-/

namespace VSM

/-- Model of an f64 value: not-a-number, the two infinities, or an exact
finite value. -/
inductive F where
  | nan : F
  | inf : F
  | ninf : F
  | fin : ℝ → F
deriving Inhabited

namespace F

/-- IEEE addition on the modelled values. -/
noncomputable def add : F → F → F
  | nan, _ => nan
  | _, nan => nan
  | inf, ninf => nan
  | ninf, inf => nan
  | inf, _ => inf
  | _, inf => inf
  | ninf, _ => ninf
  | _, ninf => ninf
  | fin a, fin b => fin (a + b)

open Classical in
/-- IEEE multiplication on the modelled values. -/
noncomputable def mul : F → F → F
  | nan, _ => nan
  | _, nan => nan
  | inf, inf => inf
  | inf, ninf => ninf
  | ninf, inf => ninf
  | ninf, ninf => inf
  | inf, fin b => if b = 0 then nan else if 0 < b then inf else ninf
  | fin a, inf => if a = 0 then nan else if 0 < a then inf else ninf
  | ninf, fin b => if b = 0 then nan else if 0 < b then ninf else inf
  | fin a, ninf => if a = 0 then nan else if 0 < a then ninf else inf
  | fin a, fin b => fin (a * b)

open Classical in
/-- IEEE division on the modelled values (0/0 is NaN, x/0 is a signed
infinity for finite nonzero x; the sign of zero is not modelled). -/
noncomputable def div : F → F → F
  | nan, _ => nan
  | _, nan => nan
  | inf, inf => nan
  | inf, ninf => nan
  | ninf, inf => nan
  | ninf, ninf => nan
  | inf, fin b => if 0 ≤ b then inf else ninf
  | ninf, fin b => if 0 ≤ b then ninf else inf
  | fin _, inf => fin 0
  | fin _, ninf => fin 0
  | fin a, fin b =>
      if b = 0 then (if a = 0 then nan else if 0 < a then inf else ninf)
      else fin (a / b)

/-- Rust `x.powi(2)`. -/
noncomputable def pow2 : F → F
  | nan => nan
  | inf => inf
  | ninf => inf
  | fin a => fin (a ^ 2)

open Classical in
/-- Rust `x.sqrt()`. -/
noncomputable def sqrt : F → F
  | nan => nan
  | inf => inf
  | ninf => nan
  | fin a => if a < 0 then nan else fin (Real.sqrt a)

open Classical in
/-- Rust `x.log10()`. -/
noncomputable def log10 : F → F
  | nan => nan
  | inf => inf
  | ninf => nan
  | fin a => if a < 0 then nan else if a = 0 then ninf else fin (Real.logb 10 a)

/-- Rank of a value in the extended real line, used to express the f64
comparison order on NaN-free data (the image of `nan` is irrelevant on
that data and is fixed arbitrarily at the top). -/
noncomputable def rank : F → EReal
  | nan => ⊤
  | inf => ⊤
  | ninf => ⊥
  | fin a => (a : EReal)

end F

/-- Source `Model::calc_idf(term_df, total_items)`:
`(total_items as f64 / term_df as f64).log10()`. -/
noncomputable def calc_idf (term_df : ℕ) (total_items : ℕ) : F :=
  F.log10 (F.div (F.fin total_items) (F.fin term_df))

/-- Source `Model::calc_tf_idf(term_frequency, idf)`. -/
noncomputable def calc_tf_idf (term_frequency : ℕ) (idf : F) : F :=
  if term_frequency = 0 then F.fin 0
  else F.mul (F.add (F.fin 1) (F.log10 (F.fin term_frequency))) idf

/-- Source `Model::calc_query_tf(term)`: `1.0 + (term as f64).log10()`. -/
noncomputable def calc_query_tf (term : ℤ) : F :=
  F.add (F.fin 1) (F.log10 (F.fin term))

/-- Source `Model::calc_query_idf(num_docs, doc_freq)`. -/
noncomputable def calc_query_idf (num_docs : ℕ) (doc_freq : ℕ) : F :=
  F.log10 (F.div (F.fin num_docs) (F.fin doc_freq))

/-- Source `Model::euclidean_len(v)`:
`v.iter().fold(0.0, |acc, elm| acc + elm.powi(2)).sqrt()`. -/
noncomputable def euclidean_len (v : List F) : F :=
  F.sqrt (v.foldl (fun acc elm => F.add acc (F.pow2 elm)) (F.fin 0))

/-- Source `Model::sim(query, doc)`.  The body indexes `doc[i]` for every
position `i` of `query`, so it panics (`none`) when `doc` is shorter
than `query`; otherwise it is the dot product of the two normalised
vectors, summed from `0.0` in order. -/
noncomputable def sim (query doc : List F) : Option F :=
  if doc.length < query.length then none
  else
    let q_len := euclidean_len query
    let d_len := euclidean_len doc
    some (query.enum.foldl
      (fun acc p =>
        F.add acc (F.mul (F.div p.2 q_len) (F.div (doc.getD p.1 (F.fin 0)) d_len)))
      (F.fin 0))

/-- The engine state, source struct `Model<T>` at `T = String` (the
`Document for String` impl of the source).  `dictionary` is the hash
set in iteration order; `index` is the hash map as an association
list; `norm` models the (processing_regex, capture) pair. -/
structure Model where
  vector_length : ℕ
  document_weights : List (List F)
  term_frequencies : List (List ℕ)
  document_frequency : List ℕ
  dictionary : List String
  index : List (String × ℕ)
  documents : List String
  norm : String → String
  queued_for_indexing : List String

/-- Source `Model::preprocess`: apply the normalization transform, split
on the one-character pattern of `split(" ")`, lower-case each piece,
keep pieces different from the empty string and from a lone space. -/
def preprocess (norm : String → String) (doc : String) : List String :=
  (((norm doc).split (fun c => c == ' ')).map String.toLower).filter
    (fun s => s != "" && s != " ")

/-- Lookup in the association-list model of `HashMap<String, usize>`. -/
def lookupIndex (index : List (String × ℕ)) (s : String) : Option ℕ :=
  (index.find? (fun p => p.1 == s)).map Prod.snd

/-- Source `dictionary.iter().enumerate().map(|(i, item)| (item, i))`:
the index built from the dictionary in its iteration order. -/
def mkIndex (dict : List String) : List (String × ℕ) :=
  dict.enum.map (fun p => (p.2, p.1))

/-- One `v[j] += 1` step on a vector of counts (the source indexing is
in bounds whenever the surrounding lookup succeeded, because ids are
below the freshly computed vector length). -/
def bumpAt (v : List ℕ) (j : ℕ) : List ℕ :=
  v.set j (v.getD j 0 + 1)

/-- Inner loop of the frequency pass, for one document:
for each term, look its id up in the index (`unwrap`: `none` on a
missing key), bump the document frequency on the first occurrence in
this row, then bump the row count. -/
def countDoc (index : List (String × ℕ)) :
    List String → List ℕ × List ℕ → Option (List ℕ × List ℕ)
  | [], st => some st
  | t :: ts, (row, df) =>
    match lookupIndex index t with
    | none => none
    | some j =>
        let df' := if row.getD j 0 = 0 then bumpAt df j else df
        countDoc index ts (bumpAt row j, df')

/-- Outer loop of the frequency pass: each document gets a fresh
all-zero row of length `vlen`; the document-frequency vector is
threaded through. -/
def countDocs (index : List (String × ℕ)) (vlen : ℕ) :
    List (List String) → List ℕ → Option (List (List ℕ) × List ℕ)
  | [], df => some ([], df)
  | d :: ds, df =>
    match countDoc index d (List.replicate vlen 0, df) with
    | none => none
    | some (row, df') =>
        (countDocs index vlen ds df').map (fun p => (row :: p.1, p.2))

/-- Source `Model::construct` without the final
`calculate_document_weights` call: tokenize every document, build the
dictionary (`order` is the iteration order of the freshly collected
`HashSet`), the index, and the term/document frequencies. -/
def construct_core (norm : String → String) (documents : List String)
    (order : List String) : Option Model :=
  let processed := documents.map (preprocess norm)
  let vector_len := order.length
  let index := mkIndex order
  match countDocs index vector_len processed (List.replicate vector_len 0) with
  | none => none
  | some (tf, df) =>
      some { vector_length := vector_len
             document_weights := []
             term_frequencies := tf
             document_frequency := df
             dictionary := order
             index := index
             documents := documents
             norm := norm
             queued_for_indexing := [] }

/-- Source `Model::calculate_document_weights`. -/
noncomputable def calculate_document_weights (m : Model) : Model :=
  { m with document_weights :=
      m.term_frequencies.map (fun document =>
        document.enum.map (fun p =>
          calc_tf_idf p.2
            (calc_idf (m.document_frequency.getD p.1 0) m.documents.length))) }

/-- Source `Model::construct`: the structural build followed by the
weight computation. -/
noncomputable def construct (norm : String → String) (documents : List String)
    (order : List String) : Option Model :=
  (construct_core norm documents order).map calculate_document_weights

/-- Source `Model::insert_docs`: extend the pending queue. -/
def insert_docs (m : Model) (docs : List String) : Model :=
  { m with queued_for_indexing := m.queued_for_indexing ++ docs }

/-- Source `Model::update_index`.  On an empty queue: report and return.
Otherwise: append the queued documents to the corpus, tokenize them,
extend the dictionary (`order` is the iteration order of the extended
`HashSet`), rebuild the index from that order, compute local
term/document frequencies for the new documents only, evaluate the
accumulated document-frequency vector at line 168 of the source and
discard it, and drain the queue.  The stored `vector_length`,
`term_frequencies`, `document_frequency` and `document_weights` fields
are never reassigned by the source.  The discarded line 168 indexes
the local vector at every position of the stored one, so it panics if
the stored vector is longer. -/
def update_index (order : List String) (m : Model) : Option Model :=
  if m.queued_for_indexing = [] then some m
  else
    let documents := m.documents ++ m.queued_for_indexing
    let processed := m.queued_for_indexing.map (preprocess m.norm)
    let vector_length := order.length
    let index := mkIndex order
    match countDocs index vector_length processed (List.replicate vector_length 0) with
    | none => none
    | some (_, df_local) =>
        if m.document_frequency.length ≤ df_local.length then
          some { m with documents := documents
                        dictionary := order
                        index := index
                        queued_for_indexing := [] }
        else none

/-- Source query-vector loop in `Model::search`: for each token found in
the index, bump the count at its id; the slice indexing panics
(`none`) when the id is not below `vector_length`. -/
def build_query_vec (index : List (String × ℕ)) :
    List String → List ℤ → Option (List ℤ)
  | [], qv => some qv
  | t :: ts, qv =>
    match lookupIndex index t with
    | none => build_query_vec index ts qv
    | some j =>
        if j < qv.length then
          build_query_vec index ts (qv.set j (qv.getD j 0 + 1))
        else none

/-- Source `Model::build_query_weights`. -/
noncomputable def build_query_weights (m : Model) (query_vec : List ℤ) : List F :=
  query_vec.enum.map (fun p =>
    if p.2 = 0 then F.fin 0
    else F.mul (calc_query_tf p.2)
      (calc_query_idf m.documents.length (m.document_frequency.getD p.1 0)))

/-- Scoring loop of `Model::search`: pair each weight row, in corpus
order, with its similarity to the query weights; a panic inside `sim`
aborts the whole call. -/
noncomputable def scoreRows (qw : List F) :
    List (ℕ × List F) → Option (List (F × ℕ))
  | [] => some []
  | (i, row) :: rest =>
    match sim qw row with
    | none => none
    | some s => (scoreRows qw rest).map (fun t => (s, i) :: t)

/-- The total order realised by the descending stable sort on NaN-free
data: score rank descending, original position ascending on ties. -/
noncomputable def descRel : F × ℕ → F × ℕ → Prop := fun a b =>
  F.rank b.1 < F.rank a.1 ∨ (F.rank a.1 = F.rank b.1 ∧ a.2 ≤ b.2)

noncomputable instance : DecidableRel descRel :=
  fun _ _ => Classical.propDecidable _

instance : IsTrans (F × ℕ) descRel where
  trans a b c hab hbc := by
    rcases hab with h1 | ⟨e1, i1⟩ <;> rcases hbc with h2 | ⟨e2, i2⟩
    · exact Or.inl (lt_trans h2 h1)
    · exact Or.inl (by rw [← e2]; exact h1)
    · exact Or.inl (by rw [e1]; exact h2)
    · exact Or.inr ⟨e1.trans e2, le_trans i1 i2⟩

instance : IsTotal (F × ℕ) descRel where
  total a b := by
    rcases lt_trichotomy (F.rank a.1) (F.rank b.1) with h | h | h
    · exact Or.inr (Or.inl h)
    · rcases Nat.le_total a.2 b.2 with hi | hi
      · exact Or.inl (Or.inr ⟨h, hi⟩)
      · exact Or.inr (Or.inr ⟨h.symm, hi⟩)
    · exact Or.inl (Or.inl h)

open Classical in
/-- Source `vec.sort_by(|f, b| b.0.partial_cmp(&f.0).unwrap())`: a panic
(`none`) as soon as the comparator meets a NaN key, which happens
exactly when the slice has at least two elements and contains one;
otherwise the unique stable descending reordering. -/
noncomputable def sortStable (l : List (F × ℕ)) : Option (List (F × ℕ)) :=
  if 2 ≤ l.length ∧ ∃ x ∈ l, x.1 = F.nan then none
  else some (l.insertionSort descRel)

/-- Source `Model::search` up to the sorted `(score, corpus position)`
list, before documents are substituted back in. -/
noncomputable def searchScored (m : Model) (query : String) :
    Option (List (F × ℕ)) := do
  let preprocessed := preprocess m.norm query
  let qv ← build_query_vec m.index preprocessed
      (List.replicate m.vector_length 0)
  let query_weight := build_query_weights m qv
  let scored ← scoreRows query_weight m.document_weights.enum
  sortStable scored

/-- Source `Model::search`: substitute each ranked position by its
document, paired with the score. -/
noncomputable def search (m : Model) (query : String) :
    Option (List (String × F)) :=
  (searchScored m query).map
    (fun l => l.map (fun item => (m.documents.getD item.2 "", item.1)))

/-- A list is an admissible iteration order of a hash set holding
exactly the elements of `tokens`: duplicate-free and with the same
member set. -/
def ValidOrder (order : List String) (tokens : List String) : Prop :=
  order.Nodup ∧ order.toFinset = tokens.toFinset

/-- Tokenizer written from the words of the spec (section 4.1): apply
the rule, split on whitespace, lower-case, discard empty pieces. -/
def tokenizeSpecWhitespace (rule : String → String) (text : String) : List String :=
  (((rule text).split (fun c => c.isWhitespace)).map String.toLower).filter
    (fun s => s != "")

/-- Tokenizer written from the words of the spec amended to split on
the space character only. -/
def tokenizeSpecSpace (rule : String → String) (text : String) : List String :=
  (((rule text).split (fun c => c == ' ')).map String.toLower).filter
    (fun s => s != "")

/-- Document-frequency value demanded by the spec invariant
`df[t] = count of rows with tf[*,t] > 0`. -/
def dfSpec (tf : List (List ℕ)) (t : ℕ) : ℕ :=
  (tf.filter (fun row => 0 < row.getD t 0)).length

/-- Structural state built by `construct` from the corpus
`["a", "a"]` (its only token set is `{"a"}`, so the iteration order is
forced). -/
def mS1core : Model :=
  { vector_length := 1
    document_weights := []
    term_frequencies := [[1], [1]]
    document_frequency := [2]
    dictionary := ["a"]
    index := [("a", 0)]
    documents := ["a", "a"]
    norm := id
    queued_for_indexing := [] }

/-- Post-construction state for the corpus `["a", "a"]`. -/
noncomputable def mS1 : Model := calculate_document_weights mS1core

/-- Structural state built by `construct` from the corpus `["a"]`. -/
def mS2core : Model :=
  { vector_length := 1
    document_weights := []
    term_frequencies := [[1]]
    document_frequency := [1]
    dictionary := ["a"]
    index := [("a", 0)]
    documents := ["a"]
    norm := id
    queued_for_indexing := [] }

/-- Post-construction state for the corpus `["a"]`. -/
noncomputable def mS2 : Model := calculate_document_weights mS2core

/-- Structural state built by `construct` from the corpus `["a b"]`
when the hash set happens to be iterated in the order a, b. -/
def mABcore : Model :=
  { vector_length := 2
    document_weights := []
    term_frequencies := [[1, 1]]
    document_frequency := [1, 1]
    dictionary := ["a", "b"]
    index := [("a", 0), ("b", 1)]
    documents := ["a b"]
    norm := id
    queued_for_indexing := [] }

/-- Post-construction state for the corpus `["a b"]`. -/
noncomputable def mAB : Model := calculate_document_weights mABcore

/-- Structural state built by `construct` from the corpus `["a", "b"]`
when the hash set happens to be iterated in the order a, b. -/
def mS3core : Model :=
  { vector_length := 2
    document_weights := []
    term_frequencies := [[1, 0], [0, 1]]
    document_frequency := [1, 1]
    dictionary := ["a", "b"]
    index := [("a", 0), ("b", 1)]
    documents := ["a", "b"]
    norm := id
    queued_for_indexing := [] }

/-- Post-construction state for the corpus `["a", "b"]`. -/
noncomputable def mS3 : Model := calculate_document_weights mS3core

/-- Structural state built by `construct` from the corpus `["a b"]`
when the hash set happens to be iterated in the order b, a. -/
def mBAcore : Model :=
  { vector_length := 2
    document_weights := []
    term_frequencies := [[1, 1]]
    document_frequency := [1, 1]
    dictionary := ["b", "a"]
    index := [("b", 0), ("a", 1)]
    documents := ["a b"]
    norm := id
    queued_for_indexing := [] }

/-- Post-construction state for the corpus `["a b"]` under the other
iteration order. -/
noncomputable def mBA : Model := calculate_document_weights mBAcore

/-- The member list of the corpus token set collected by `construct`. -/
def corpusTokens (norm : String → String) (documents : List String) : List String :=
  (documents.map (preprocess norm)).flatten

/-- The member list of the extended dictionary a `merge` builds: the
old dictionary united with the distinct tokens of the queued
documents. -/
def mergedTokens (m : Model) : List String :=
  m.dictionary ++ (m.queued_for_indexing.map (preprocess m.norm)).flatten

/-- State after queueing `["b"]` on `mS2` and merging under the
iteration order a, b. -/
noncomputable def mS2m : Model :=
  { mS2 with documents := ["a", "b"]
             dictionary := ["a", "b"]
             index := [("a", 0), ("b", 1)]
             queued_for_indexing := [] }

/-- State after queueing `["c"]` on `mAB` and merging under the
iteration order b, a, c. -/
noncomputable def mABm : Model :=
  { mAB with documents := ["a b", "c"]
             dictionary := ["b", "a", "c"]
             index := [("b", 0), ("a", 1), ("c", 2)]
             queued_for_indexing := [] }

/-! Helper lemmas: single-step facts about the float model, projections
of the weight computation, and evaluations of the tokenizer and of the
example states. -/

theorem F_add_nan_r (x : F) : F.add x F.nan = F.nan := by cases x <;> rfl

theorem F_mul_nan_l (x : F) : F.mul F.nan x = F.nan := F.mul.eq_1 x

theorem F_div_zero_zero : F.div (F.fin 0) (F.fin 0) = F.nan := by
  simp [F.div]

theorem F_fin_one_add_zero : F.add (F.fin 1) (F.fin 0) = F.fin 1 := by
  norm_num [F.add]

theorem F_mul_one_zero : F.mul (F.fin 1) (F.fin 0) = F.fin 0 := by
  norm_num [F.mul]

theorem F_log10_fin_one : F.log10 (F.fin 1) = F.fin 0 := by
  norm_num [F.log10, Real.logb_one]

theorem F_div_two_two : F.div (F.fin 2) (F.fin 2) = F.fin 1 := by
  norm_num [F.div]

theorem F_div_one_one : F.div (F.fin 1) (F.fin 1) = F.fin 1 := by
  norm_num [F.div]

theorem euclidean_len_zero1 : euclidean_len [F.fin 0] = F.fin 0 := by
  norm_num [euclidean_len, F.add, F.pow2, F.sqrt, Real.sqrt_zero]

theorem calc_dw_vector_length (m : Model) :
    (calculate_document_weights m).vector_length = m.vector_length := rfl

theorem calc_dw_term_frequencies (m : Model) :
    (calculate_document_weights m).term_frequencies = m.term_frequencies := rfl

theorem calc_dw_document_frequency (m : Model) :
    (calculate_document_weights m).document_frequency = m.document_frequency := rfl

theorem calc_dw_dictionary (m : Model) :
    (calculate_document_weights m).dictionary = m.dictionary := rfl

theorem calc_dw_index (m : Model) :
    (calculate_document_weights m).index = m.index := rfl

theorem calc_dw_documents (m : Model) :
    (calculate_document_weights m).documents = m.documents := rfl

theorem calc_dw_queued (m : Model) :
    (calculate_document_weights m).queued_for_indexing = m.queued_for_indexing := rfl

theorem calc_dw_norm (m : Model) :
    (calculate_document_weights m).norm = m.norm := rfl

theorem preprocess_eval_a : preprocess id "a" = ["a"] := by
  simp [preprocess, String.split_of_valid, String.toLower, String.map_eq]

theorem preprocess_eval_b : preprocess id "b" = ["b"] := by
  simp [preprocess, String.split_of_valid, String.toLower, String.map_eq]

theorem preprocess_eval_x : preprocess id "x" = ["x"] := by
  simp [preprocess, String.split_of_valid, String.toLower, String.map_eq]

theorem preprocess_eval_ab : preprocess id "a b" = ["a", "b"] := by
  simp +decide [preprocess, String.split_of_valid, String.toLower, String.map_eq]

theorem preprocess_eval_c : preprocess id "c" = ["c"] := by
  simp [preprocess, String.split_of_valid, String.toLower, String.map_eq]

theorem preprocess_eval_empty : preprocess id "" = [] := by
  simp [preprocess, String.split_of_valid, String.toLower, String.map_eq]

/-- A similarity call with the all-zero one-dimensional query weight
vector yields NaN against every one-dimensional row: the query
magnitude is zero and 0/0 is NaN. -/
theorem sim_zero_query (row : List F) (h : row.length = 1) :
    sim [F.fin 0] row = some F.nan := by
  simp [sim, h, euclidean_len_zero1, F_div_zero_zero, F_mul_nan_l, F_add_nan_r]

theorem sim_zero_query_witness :
    ([F.nan].length = 1) ∧ sim [F.fin 0] [F.nan] = some F.nan :=
  ⟨rfl, sim_zero_query [F.nan] rfl⟩

theorem construct_core_eval_S1 :
    construct_core id ["a", "a"] ["a"] = some mS1core := by
  simp +decide [construct_core, preprocess_eval_a, mkIndex, countDocs,
    countDoc, lookupIndex, bumpAt, mS1core, List.replicate]

theorem construct_core_eval_S2 :
    construct_core id ["a"] ["a"] = some mS2core := by
  simp +decide [construct_core, preprocess_eval_a, mkIndex, countDocs,
    countDoc, lookupIndex, bumpAt, mS2core, List.replicate]

theorem construct_eval_S1 : construct id ["a", "a"] ["a"] = some mS1 := by
  simp [construct, construct_core_eval_S1, mS1]

theorem construct_eval_S2 : construct id ["a"] ["a"] = some mS2 := by
  simp [construct, construct_core_eval_S2, mS2]

theorem mS1_weights : mS1.document_weights =
    [[calc_tf_idf 1 (calc_idf 2 2)], [calc_tf_idf 1 (calc_idf 2 2)]] := by
  simp [mS1, calculate_document_weights, mS1core]

theorem mS2_weights : mS2.document_weights =
    [[calc_tf_idf 1 (calc_idf 1 1)]] := by
  simp [mS2, calculate_document_weights, mS2core]

theorem qw_one_term_S1 : build_query_weights mS1 [1] = [F.fin 0] := by
  simp [build_query_weights, mS1, calculate_document_weights, mS1core,
    calc_query_tf, calc_query_idf, F_log10_fin_one, F_fin_one_add_zero,
    F_div_two_two, F_mul_one_zero]

theorem qw_zero_term_S2 : build_query_weights mS2 [0] = [F.fin 0] := by
  simp [build_query_weights, mS2, calculate_document_weights, mS2core]

/-- Scoring the two-document state `mS1` with the degenerate query
weight vector: both scores are NaN and the sort comparator panics. -/
theorem eval_scored_S1 : searchScored mS1 "a" = none := by
  have hqv : build_query_vec mS1.index (preprocess mS1.norm "a")
      (List.replicate mS1.vector_length 0) = some [1] := by
    simp [mS1, calculate_document_weights, mS1core, preprocess_eval_a,
      build_query_vec, lookupIndex, bumpAt]
  simp only [searchScored, hqv, Option.bind_eq_bind, Option.some_bind,
    qw_one_term_S1, mS1_weights]
  simp [scoreRows, sim_zero_query, sortStable]

/-- Scoring the one-document state `mS2` with an out-of-vocabulary
query: the single score is NaN and, the slice having one element, the
sort performs no comparison and the NaN is returned to the caller. -/
theorem eval_scored_S2 : searchScored mS2 "b" = some [(F.nan, 0)] := by
  have hqv : build_query_vec mS2.index (preprocess mS2.norm "b")
      (List.replicate mS2.vector_length 0) = some [0] := by
    simp [mS2, calculate_document_weights, mS2core, preprocess_eval_b,
      build_query_vec, lookupIndex, bumpAt]
  simp only [searchScored, hqv, Option.bind_eq_bind, Option.some_bind,
    qw_zero_term_S2, mS2_weights]
  simp [scoreRows, sim_zero_query, sortStable, List.insertionSort,
    List.orderedInsert]

theorem eval_search_S1 : search mS1 "a" = none := by
  simp [search, eval_scored_S1]

theorem eval_search_S2 : search mS2 "b" = some [("a", F.nan)] := by
  rw [search, eval_scored_S2]
  simp [mS2, calculate_document_weights, mS2core]

theorem qw_zero_term_S1 : build_query_weights mS1 [0] = [F.fin 0] := by
  simp [build_query_weights, mS1, calculate_document_weights, mS1core]

/-- Empty query over the two-document state: the query weight vector is
all zero and the sort comparator panics on NaN. -/
theorem eval_scored_S1_empty : searchScored mS1 "" = none := by
  have hqv : build_query_vec mS1.index (preprocess mS1.norm "")
      (List.replicate mS1.vector_length 0) = some [0] := by
    simp [mS1, calculate_document_weights, mS1core, preprocess_eval_empty,
      build_query_vec]
  simp only [searchScored, hqv, Option.bind_eq_bind, Option.some_bind,
    qw_zero_term_S1, mS1_weights]
  simp [scoreRows, sim_zero_query, sortStable]

theorem eval_search_S1_empty : search mS1 "" = none := by
  simp [search, eval_scored_S1_empty]

theorem mkIndex_eval_a : mkIndex ["a"] = [("a", 0)] := rfl

theorem mkIndex_eval_ab : mkIndex ["a", "b"] = [("a", 0), ("b", 1)] := rfl

theorem mkIndex_eval_ba : mkIndex ["b", "a"] = [("b", 0), ("a", 1)] := rfl

theorem mkIndex_eval_bac :
    mkIndex ["b", "a", "c"] = [("b", 0), ("a", 1), ("c", 2)] := rfl

theorem construct_core_eval_AB :
    construct_core id ["a b"] ["a", "b"] = some mABcore := by
  simp +decide [construct_core, preprocess_eval_ab, mkIndex_eval_ab, countDocs,
    countDoc, lookupIndex, bumpAt, List.find?, mABcore, List.replicate]

theorem construct_core_eval_BA :
    construct_core id ["a b"] ["b", "a"] = some mBAcore := by
  simp +decide [construct_core, preprocess_eval_ab, mkIndex_eval_ba, countDocs,
    countDoc, lookupIndex, bumpAt, List.find?, mBAcore, List.replicate]

theorem construct_eval_AB : construct id ["a b"] ["a", "b"] = some mAB := by
  simp [construct, construct_core_eval_AB, mAB]

theorem construct_eval_BA : construct id ["a b"] ["b", "a"] = some mBA := by
  simp [construct, construct_core_eval_BA, mBA]

/-- Merging the queued document `"b"` into the one-document state under
the iteration order a, b. -/
theorem merge_eval_S2 :
    update_index ["a", "b"] (insert_docs mS2 ["b"]) = some mS2m := by
  simp +decide [update_index, insert_docs, mS2m, mS2, calculate_document_weights,
    mS2core, preprocess_eval_b, mkIndex_eval_ab, countDocs, countDoc, lookupIndex,
    bumpAt, List.find?, List.replicate]

/-- Merging the queued document `"c"` into the `["a b"]` state under
the iteration order b, a, c. -/
theorem merge_eval_AB :
    update_index ["b", "a", "c"] (insert_docs mAB ["c"]) = some mABm := by
  simp +decide [update_index, insert_docs, mABm, mAB, calculate_document_weights,
    mABcore, preprocess_eval_c, mkIndex_eval_bac, countDocs, countDoc, lookupIndex,
    bumpAt, List.find?, List.replicate]

theorem mergedTokens_AB :
    mergedTokens (insert_docs mAB ["c"]) = ["a", "b", "c"] := by
  simp [mergedTokens, insert_docs, mAB, calculate_document_weights, mABcore,
    preprocess_eval_c]

theorem mergedTokens_S2 :
    mergedTokens (insert_docs mS2 ["b"]) = ["a", "b"] := by
  simp [mergedTokens, insert_docs, mS2, calculate_document_weights, mS2core,
    preprocess_eval_b]

theorem corpusTokens_AB : corpusTokens id ["a b"] = ["a", "b"] := by
  simp [corpusTokens, preprocess_eval_ab]

/-! Claim theorems. -/

/-- C1.  The claim says a zero-magnitude query or document weight
vector yields similarity 0, that no caller-visible score is ever NaN,
and that the sort step never fails, in particular for an empty query
over a non-empty corpus.  The code does none of this: over the corpus
`["a", "a"]` (reached by `construct`), the empty query and the query
`"a"` both produce the all-zero query weight vector, every similarity
is NaN, and the sort comparator `partial_cmp(..).unwrap()` panics
(`search` returns `none`); over the corpus `["a"]` with the
out-of-vocabulary query `"b"` there is no comparison to panic on and
the caller receives the score NaN. -/
theorem C1_zero_magnitude_not_defined_as_zero :
    construct id ["a", "a"] ["a"] = some mS1 ∧
    construct id ["a"] ["a"] = some mS2 ∧
    search mS1 "" = none ∧
    search mS1 "a" = none ∧
    search mS2 "b" = some [("a", F.nan)] :=
  ⟨construct_eval_S1, construct_eval_S2, eval_search_S1_empty,
    eval_search_S1, eval_search_S2⟩

/-- C2.  The claim says every token already present in the index keeps
exactly the same id across a merge.  The code rebuilds the index from
the iteration order of the extended hash set, so an admissible order
can renumber the existing tokens: from the reachable state `mAB`
(index a to 0, b to 1), merging the queued document `"c"` under the
admissible iteration order b, a, c moves `"a"` to id 1 and `"b"` to
id 0. -/
theorem C2_merge_renumbers_existing_ids :
    construct id ["a b"] ["a", "b"] = some mAB ∧
    ValidOrder ["b", "a", "c"] (mergedTokens (insert_docs mAB ["c"])) ∧
    lookupIndex mAB.index "a" = some 0 ∧
    lookupIndex mAB.index "b" = some 1 ∧
    update_index ["b", "a", "c"] (insert_docs mAB ["c"]) = some mABm ∧
    lookupIndex mABm.index "a" = some 1 ∧
    lookupIndex mABm.index "b" = some 0 := by
  refine ⟨construct_eval_AB, ?_, ?_, ?_, merge_eval_AB, ?_, ?_⟩
  · rw [mergedTokens_AB]; exact ⟨by decide, by decide⟩
  all_goals simp +decide [mAB, mABm, calculate_document_weights, mABcore,
    lookupIndex]

/-- C3.  The claim says that after a merge every term-frequency row has
the new vector length and the stored document-frequency vector carries
the accumulated counts.  In the code the freshly computed rows and the
accumulated vector are locals that are dropped: after merging `"b"`
into the `["a"]` state, the corpus has 2 documents and the dictionary
2 tokens, yet the stored matrix still is `[[1]]` (one row of width 1)
and the stored document-frequency vector still is `[1]`, although the
merge itself computed the new row `[0, 1]` and the delta `[0, 1]` for
the new document before discarding them. -/
theorem C3_merge_discards_frequencies :
    construct id ["a"] ["a"] = some mS2 ∧
    ValidOrder ["a", "b"] (mergedTokens (insert_docs mS2 ["b"])) ∧
    update_index ["a", "b"] (insert_docs mS2 ["b"]) = some mS2m ∧
    mS2m.documents.length = 2 ∧
    mS2m.dictionary.length = 2 ∧
    mS2m.term_frequencies = [[1]] ∧
    countDocs (mkIndex ["a", "b"]) 2 [preprocess id "b"] (List.replicate 2 0)
      = some ([[0, 1]], [0, 1]) ∧
    mS2m.document_frequency = [1] := by
  refine ⟨construct_eval_S2, ?_, merge_eval_S2, ?_, ?_, ?_, ?_, ?_⟩
  · rw [mergedTokens_S2]; exact ⟨by decide, by decide⟩
  all_goals simp +decide [mS2m, mS2, calculate_document_weights, mS2core,
    preprocess_eval_b, countDocs, countDoc, mkIndex_eval_ab, lookupIndex, bumpAt,
    List.find?, List.replicate]

/-- C7.  Calling `merge` (source `update_index`) with an empty pending
queue reports and returns without touching any field: the resulting
state is the input state, whatever iteration order the extended hash
set would have had. -/
theorem C7_empty_merge_is_noop (order : List String) (m : Model)
    (h : m.queued_for_indexing = []) : update_index order m = some m := by
  simp [update_index, h]

theorem C7_empty_merge_is_noop_witness :
    mS2.queued_for_indexing = [] ∧ update_index ["a"] mS2 = some mS2 :=
  ⟨rfl, C7_empty_merge_is_noop ["a"] mS2 rfl⟩

/-- C8.  `insert_docs` appends to the pending queue and changes nothing
else: every other field of the state is returned unaltered. -/
theorem C8_insert_only_queues (m : Model) (docs : List String) :
    (insert_docs m docs).vector_length = m.vector_length ∧
    (insert_docs m docs).document_weights = m.document_weights ∧
    (insert_docs m docs).term_frequencies = m.term_frequencies ∧
    (insert_docs m docs).document_frequency = m.document_frequency ∧
    (insert_docs m docs).dictionary = m.dictionary ∧
    (insert_docs m docs).index = m.index ∧
    (insert_docs m docs).documents = m.documents ∧
    (insert_docs m docs).norm = m.norm ∧
    (insert_docs m docs).queued_for_indexing = m.queued_for_indexing ++ docs :=
  ⟨rfl, rfl, rfl, rfl, rfl, rfl, rfl, rfl, rfl⟩

/-- C10.  A merge of a non-empty queue leaves the stored term-frequency
matrix, document-frequency vector, vector length and weight matrix
exactly as they were (the freshly computed frequencies live in locals
that are dropped), and only the corpus, the dictionary, the index and
the drained queue change. -/
theorem C10_merge_frame (order : List String) (m m' : Model)
    (hne : m.queued_for_indexing ≠ [])
    (h : update_index order m = some m') :
    m'.vector_length = m.vector_length ∧
    m'.document_weights = m.document_weights ∧
    m'.term_frequencies = m.term_frequencies ∧
    m'.document_frequency = m.document_frequency ∧
    m'.norm = m.norm ∧
    m'.documents = m.documents ++ m.queued_for_indexing ∧
    m'.dictionary = order ∧
    m'.index = mkIndex order ∧
    m'.queued_for_indexing = [] := by
  simp only [update_index, if_neg hne] at h
  split at h
  · exact absurd h (by simp)
  · split at h
    · obtain rfl := Option.some.inj h
      exact ⟨rfl, rfl, rfl, rfl, rfl, rfl, rfl, rfl, rfl⟩
    · exact absurd h (by simp)

theorem C10_merge_frame_witness :
    (insert_docs mS2 ["b"]).queued_for_indexing ≠ [] ∧
    update_index ["a", "b"] (insert_docs mS2 ["b"]) = some mS2m ∧
    (mS2m.vector_length = (insert_docs mS2 ["b"]).vector_length ∧
     mS2m.document_weights = (insert_docs mS2 ["b"]).document_weights ∧
     mS2m.term_frequencies = (insert_docs mS2 ["b"]).term_frequencies ∧
     mS2m.document_frequency = (insert_docs mS2 ["b"]).document_frequency ∧
     mS2m.norm = (insert_docs mS2 ["b"]).norm ∧
     mS2m.documents = (insert_docs mS2 ["b"]).documents ++
       (insert_docs mS2 ["b"]).queued_for_indexing ∧
     mS2m.dictionary = ["a", "b"] ∧
     mS2m.index = mkIndex ["a", "b"] ∧
     mS2m.queued_for_indexing = []) :=
  ⟨by simp [insert_docs], merge_eval_S2,
    C10_merge_frame ["a", "b"] _ _ (by simp [insert_docs]) merge_eval_S2⟩

/-- C4.  The claim says initial construction assigns ids
deterministically: two builds from the same inputs give the same index.
The code enumerates a hash set, so both a, b and b, a are admissible
iteration orders for the corpus `["a b"]`, and they assign `"a"` the
ids 0 and 1 respectively. -/
theorem sortStable_eq_some {l out : List (F × ℕ)}
    (h : sortStable l = some out) : out = l.insertionSort descRel := by
  rw [sortStable] at h
  split at h
  · exact absurd h (by simp)
  · exact (Option.some.inj h).symm

theorem scoreRows_map_snd (qw : List F) (rows : List (ℕ × List F)) :
    ∀ out, scoreRows qw rows = some out →
      out.map Prod.snd = rows.map Prod.fst := by
  induction rows with
  | nil =>
      intro out h
      rw [scoreRows] at h
      obtain rfl := Option.some.inj h
      rfl
  | cons p rest ih =>
      intro out h
      obtain ⟨i, row⟩ := p
      rw [scoreRows] at h
      split at h
      · exact absurd h (by simp)
      · obtain ⟨t, ht, rfl⟩ := Option.map_eq_some'.mp h
        simp [ih t ht]

theorem searchScored_eq_some {m : Model} {q : String} {l : List (F × ℕ)}
    (h : searchScored m q = some l) :
    ∃ qv scored,
      build_query_vec m.index (preprocess m.norm q)
        (List.replicate m.vector_length 0) = some qv ∧
      scoreRows (build_query_weights m qv) m.document_weights.enum
        = some scored ∧
      sortStable scored = some l := by
  simp only [searchScored, Option.bind_eq_bind, Option.bind_eq_some] at h
  obtain ⟨qv, hqv, scored, hsc, hsort⟩ := h
  exact ⟨qv, scored, hqv, hsc, hsort⟩

theorem map_getD_range {α : Type} (l : List α) (d : α) :
    (List.range l.length).map (fun i => l.getD i d) = l := by
  apply List.ext_getElem
  · simp
  · intro n h1 h2
    rw [List.getElem_map, List.getElem_range, List.getD_eq_getElem l d h2]

theorem hlogb_pos : (0 : ℝ) < Real.logb 10 2 :=
  Real.logb_pos (by norm_num) (by norm_num)

theorem construct_core_eval_S3 :
    construct_core id ["a", "b"] ["a", "b"] = some mS3core := by
  simp +decide [construct_core, preprocess_eval_a, preprocess_eval_b,
    mkIndex_eval_ab, countDocs, countDoc, lookupIndex, bumpAt, List.find?,
    mS3core, List.replicate]

theorem construct_eval_S3 : construct id ["a", "b"] ["a", "b"] = some mS3 := by
  simp [construct, construct_core_eval_S3, mS3]

theorem W_eval : calc_tf_idf 1 (calc_idf 1 2) = F.fin (Real.logb 10 2) := by
  norm_num [calc_tf_idf, calc_idf, F.div, F.log10, F.add, F.mul,
    Real.logb_one]

theorem calc_tf_idf_zero (idf : F) : calc_tf_idf 0 idf = F.fin 0 := by
  simp [calc_tf_idf]

theorem cqt_one : calc_query_tf 1 = F.fin 1 := by
  norm_num [calc_query_tf, F.log10, F.add, Real.logb_one]

theorem cqi_two_one : calc_query_idf 2 1 = F.fin (Real.logb 10 2) := by
  norm_num [calc_query_idf, F.div, F.log10]

theorem F_mul_one_L :
    F.mul (F.fin 1) (F.fin (Real.logb 10 2)) = F.fin (Real.logb 10 2) := by
  norm_num [F.mul]

theorem mS3_weights : mS3.document_weights =
    [[F.fin (Real.logb 10 2), F.fin 0], [F.fin 0, F.fin (Real.logb 10 2)]] := by
  simp [mS3, calculate_document_weights, mS3core, List.enum, List.enumFrom,
    List.getElem_cons_succ, List.getElem_cons_zero, W_eval, calc_tf_idf_zero]
  exact W_eval

theorem qw_eval_S3 : build_query_weights mS3 [1, 0] =
    [F.fin (Real.logb 10 2), F.fin 0] := by
  simp [build_query_weights, mS3, calculate_document_weights, mS3core,
    List.enum, List.enumFrom, cqt_one, cqi_two_one, F_mul_one_L]

theorem euclid_eval_L0 :
    euclidean_len [F.fin (Real.logb 10 2), F.fin 0] =
      F.fin (Real.logb 10 2) := by
  have h1 : ((0:ℝ) + (Real.logb 10 2) ^ 2) + 0 ^ 2 = (Real.logb 10 2) ^ 2 := by
    ring
  simp only [euclidean_len, List.foldl, F.add, F.pow2, h1, F.sqrt]
  rw [if_neg (not_lt.mpr (sq_nonneg _)), Real.sqrt_sq hlogb_pos.le]

theorem euclid_eval_0L :
    euclidean_len [F.fin 0, F.fin (Real.logb 10 2)] =
      F.fin (Real.logb 10 2) := by
  have h1 : ((0:ℝ) + 0 ^ 2) + (Real.logb 10 2) ^ 2 = (Real.logb 10 2) ^ 2 := by
    ring
  simp only [euclidean_len, List.foldl, F.add, F.pow2, h1, F.sqrt]
  rw [if_neg (not_lt.mpr (sq_nonneg _)), Real.sqrt_sq hlogb_pos.le]

theorem F_div_L_L : F.div (F.fin (Real.logb 10 2)) (F.fin (Real.logb 10 2))
    = F.fin 1 := by
  rw [F.div, if_neg hlogb_pos.ne', div_self hlogb_pos.ne']

theorem F_div_zero_L : F.div (F.fin 0) (F.fin (Real.logb 10 2))
    = F.fin 0 := by
  rw [F.div, if_neg hlogb_pos.ne', zero_div]

theorem sim_eval_S3_row0 :
    sim [F.fin (Real.logb 10 2), F.fin 0]
      [F.fin (Real.logb 10 2), F.fin 0] = some (F.fin 1) := by
  simp only [sim, List.length_cons, List.length_nil, lt_irrefl, if_false,
    euclid_eval_L0]
  norm_num [List.enum, List.enumFrom, F_div_L_L, F_div_zero_L, F.add, F.mul]

theorem sim_eval_S3_row1 :
    sim [F.fin (Real.logb 10 2), F.fin 0]
      [F.fin 0, F.fin (Real.logb 10 2)] = some (F.fin 0) := by
  simp only [sim, List.length_cons, List.length_nil, lt_irrefl, if_false,
    euclid_eval_L0, euclid_eval_0L]
  norm_num [List.enum, List.enumFrom, F_div_L_L, F_div_zero_L, F.add, F.mul]

theorem descRel_10 : descRel (F.fin 1, 0) (F.fin 0, 1) := by
  refine Or.inl ?_
  simp only [F.rank]
  exact_mod_cast (by norm_num : (0:ℝ) < 1)

theorem sort_eval_S3 :
    sortStable [(F.fin 1, 0), (F.fin 0, 1)]
      = some [(F.fin 1, 0), (F.fin 0, 1)] := by
  rw [sortStable, if_neg (by simp)]
  simp [List.insertionSort, List.orderedInsert, if_pos descRel_10]

theorem eval_scored_S3 :
    searchScored mS3 "a" = some [(F.fin 1, 0), (F.fin 0, 1)] := by
  have hqv : build_query_vec mS3.index (preprocess mS3.norm "a")
      (List.replicate mS3.vector_length 0) = some [1, 0] := by
    simp +decide [mS3, calculate_document_weights, mS3core, preprocess_eval_a,
      build_query_vec, lookupIndex, bumpAt, List.find?, List.replicate]
  simp only [searchScored, hqv, Option.bind_eq_bind, Option.some_bind,
    qw_eval_S3, mS3_weights]
  simp [scoreRows, List.enum, List.enumFrom, sim_eval_S3_row0,
    sim_eval_S3_row1, sort_eval_S3]

theorem eval_search_S3 :
    search mS3 "a" = some [("a", F.fin 1), ("b", F.fin 0)] := by
  rw [search, eval_scored_S3]
  simp [mS3, calculate_document_weights, mS3core]

/-- C6.  Whenever `search` returns (the sort comparator does not meet a
NaN), the scored list is ordered by descending score, and two entries
with equal scores keep their original corpus order: the earlier corpus
position comes first. -/
theorem C6_sorted_descending_stable (m : Model) (q : String)
    (l : List (F × ℕ)) (h : searchScored m q = some l) :
    l.Pairwise (fun a b =>
      F.rank b.1 ≤ F.rank a.1 ∧ (a.1 = b.1 → a.2 < b.2)) := by
  obtain ⟨qv, scored, hqv, hsc, hsort⟩ := searchScored_eq_some h
  obtain rfl := sortStable_eq_some hsort
  have hperm : (scored.insertionSort descRel).Perm scored :=
    List.perm_insertionSort _ _
  have hsorted : List.Pairwise descRel (scored.insertionSort descRel) :=
    List.sorted_insertionSort _ _
  have hsnd : scored.map Prod.snd = List.range m.document_weights.length := by
    rw [scoreRows_map_snd _ _ _ hsc, List.enum_map_fst]
  have hnd : ((scored.insertionSort descRel).map Prod.snd).Nodup := by
    rw [(hperm.map Prod.snd).nodup_iff, hsnd]
    exact List.nodup_range _
  have hpne := List.pairwise_map.mp hnd
  refine (hsorted.and hpne).imp ?_
  rintro a b ⟨h1 | ⟨he, hle⟩, hne⟩
  · exact ⟨le_of_lt h1, fun he1 => absurd (congrArg F.rank he1) h1.ne'⟩
  · exact ⟨le_of_eq he.symm, fun _ => lt_of_le_of_ne hle hne⟩

theorem C6_sorted_descending_stable_witness :
    searchScored mS3 "a" = some [(F.fin 1, 0), (F.fin 0, 1)] ∧
    ([(F.fin 1, 0), (F.fin 0, 1)] : List (F × ℕ)).Pairwise (fun a b =>
      F.rank b.1 ≤ F.rank a.1 ∧ (a.1 = b.1 → a.2 < b.2)) :=
  ⟨eval_scored_S3, C6_sorted_descending_stable mS3 "a" _ eval_scored_S3⟩

/-- C5 (amended).  In a state whose weight matrix has one row per
document (as after construction, or after an explicit weight
recomputation), whenever `search` returns at all, it returns one entry
per document and the returned documents are exactly the corpus. -/
theorem C5_amended_search_covers_corpus (m : Model) (q : String)
    (res : List (String × F))
    (hw : m.document_weights.length = m.documents.length)
    (h : search m q = some res) :
    res.length = m.documents.length ∧ (res.map Prod.fst).Perm m.documents := by
  rw [search] at h
  obtain ⟨l, hl, hres⟩ := Option.map_eq_some'.mp h
  obtain ⟨qv, scored, hqv, hsc, hsort⟩ := searchScored_eq_some hl
  obtain rfl := sortStable_eq_some hsort
  have hperm : (scored.insertionSort descRel).Perm scored :=
    List.perm_insertionSort _ _
  have hsnd : scored.map Prod.snd = List.range m.document_weights.length := by
    rw [scoreRows_map_snd _ _ _ hsc, List.enum_map_fst]
  have hdocs : ((scored.insertionSort descRel).map
      (fun item => m.documents.getD item.2 "")).Perm m.documents := by
    refine (hperm.map _).trans ?_
    have : scored.map (fun item => m.documents.getD item.2 "")
        = (scored.map Prod.snd).map (fun i => m.documents.getD i "") := by
      rw [List.map_map]; rfl
    rw [this, hsnd, hw]
    exact (map_getD_range m.documents "").symm ▸ List.Perm.refl _
  constructor
  · rw [← hres]
    have h1 : ((scored.insertionSort descRel).map
        (fun item => (m.documents.getD item.2 "", item.1))).length
        = (scored.insertionSort descRel).length := List.length_map _ _
    have h2 := hdocs.length_eq
    simpa [h1] using h2
  · rw [← hres, List.map_map]
    exact hdocs

theorem C5_amended_search_covers_corpus_witness :
    mS3.document_weights.length = mS3.documents.length ∧
    search mS3 "a" = some [("a", F.fin 1), ("b", F.fin 0)] ∧
    (([("a", F.fin 1), ("b", F.fin 0)] : List (String × F)).length
        = mS3.documents.length ∧
      (([("a", F.fin 1), ("b", F.fin 0)] : List (String × F)).map
        Prod.fst).Perm mS3.documents) :=
  ⟨by rw [mS3_weights]; rfl, eval_search_S3,
    C5_amended_search_covers_corpus mS3 "a" _ (by rw [mS3_weights]; rfl)
      eval_search_S3⟩

theorem qw_zero_term_S2m : build_query_weights mS2m [0] = [F.fin 0] := by
  simp [build_query_weights, mS2m, mS2, calculate_document_weights, mS2core]

/-- Search on the stale post-merge state: the out-of-vocabulary query
is scored against the single stale weight row, although the corpus now
has two documents. -/
theorem eval_scored_S2m : searchScored mS2m "x" = some [(F.nan, 0)] := by
  have hqv : build_query_vec mS2m.index (preprocess mS2m.norm "x")
      (List.replicate mS2m.vector_length 0) = some [0] := by
    simp +decide [mS2m, mS2, calculate_document_weights, mS2core,
      preprocess_eval_x, build_query_vec, lookupIndex, List.find?]
  have hW : mS2m.document_weights = [[calc_tf_idf 1 (calc_idf 1 1)]] :=
    mS2_weights
  simp only [searchScored, hqv, Option.bind_eq_bind, Option.some_bind,
    qw_zero_term_S2m, hW]
  simp [scoreRows, sim_zero_query, sortStable, List.insertionSort,
    List.orderedInsert]

theorem eval_search_S2m : search mS2m "x" = some [("a", F.nan)] := by
  rw [search, eval_scored_S2m]
  simp [mS2m]

/-- C5 (counterexample).  In the reachable state obtained by
constructing over `["a"]`, queueing `"b"` and merging, the corpus has
two documents but `search` returns a single entry: the loop ranges
over the stale one-row weight matrix, so document `"b"` is dropped
from the result. -/
theorem C5_search_misses_corpus :
    construct id ["a"] ["a"] = some mS2 ∧
    ValidOrder ["a", "b"] (mergedTokens (insert_docs mS2 ["b"])) ∧
    update_index ["a", "b"] (insert_docs mS2 ["b"]) = some mS2m ∧
    mS2m.documents.length = 2 ∧
    search mS2m "x" = some [("a", F.nan)] ∧
    ([("a", F.nan)] : List (String × F)).length ≠ mS2m.documents.length := by
  refine ⟨construct_eval_S2, ?_, merge_eval_S2, by simp [mS2m],
    eval_search_S2m, by simp [mS2m]⟩
  rw [mergedTokens_S2]; exact ⟨by decide, by decide⟩

/-- No piece produced by `splitOnP` contains an element satisfying the
split predicate. -/
theorem splitOnP_sep_free {α : Type} (p : α → Bool) (xs : List α) :
    ∀ l ∈ xs.splitOnP p, ∀ a ∈ l, p a = false := by
  induction xs with
  | nil =>
      intro l hl a ha
      rw [List.splitOnP_nil] at hl
      obtain rfl : l = [] := by simpa using hl
      simp at ha
  | cons x xs ih =>
      intro l hl a ha
      rw [List.splitOnP_cons] at hl
      by_cases hx : p x = true
      · rw [if_pos hx] at hl
        rcases List.mem_cons.mp hl with rfl | hl2
        · simp at ha
        · exact ih l hl2 a ha
      · rw [if_neg hx] at hl
        obtain ⟨h0, t0, heq⟩ :=
          List.exists_cons_of_ne_nil (List.splitOnP_ne_nil p xs)
        rw [heq, List.modifyHead] at hl
        rcases List.mem_cons.mp hl with rfl | hl2
        · rcases List.mem_cons.mp ha with rfl | ha2
          · exact Bool.eq_false_iff.mpr hx
          · exact ih h0 (heq ▸ List.mem_cons_self _ _) a ha2
        · exact ih l (heq ▸ List.mem_cons_of_mem _ hl2) a ha


/-- Lower-casing maps no character other than the space to the space:
the shifted range of the upper-case letters stays far from 32. -/
theorem toLower_ne_space {c : Char} (hc : (c == ' ') = false) :
    Char.toLower c ≠ ' ' := by
  intro h
  simp only [Char.toLower] at h
  by_cases hbound : c.toNat ≥ 65 ∧ c.toNat ≤ 90
  · rw [if_pos hbound] at h
    have hv : (c.toNat + 32).isValidChar := Or.inl (by omega)
    have h32 : (Char.ofNat (c.toNat + 32)).toNat = c.toNat + 32 := by
      rw [Char.ofNat, dif_pos hv]; rfl
    have hn := congrArg Char.toNat h
    rw [h32] at hn
    have hsp : (' ').toNat = 32 := rfl
    rw [hsp] at hn
    omega
  · rw [if_neg hbound] at h
    subst h
    simp at hc

/-- Lower-casing a separator-free piece never yields the string
consisting of one space. -/
theorem toLower_piece_ne_space {cs : List Char}
    (hcs : ∀ c ∈ cs, (c == ' ') = false) :
    String.toLower (String.mk cs) ≠ " " := by
  intro h
  rw [String.toLower, String.map_eq] at h
  have hdata : cs.map Char.toLower = [' '] := congrArg String.data h
  cases cs with
  | nil => simp at hdata
  | cons c cs' =>
    cases cs' with
    | nil =>
        have h1 : Char.toLower c = ' ' := by simpa using hdata
        exact toLower_ne_space (hcs c (by simp)) h1
    | cons d cs2 => simp at hdata

/-- C9 (counterexample).  The claim says `preprocess` splits on
whitespace, but the code splits on the space character only: a tab is
kept inside a token instead of separating two tokens. -/
theorem C9_tab_is_not_a_separator :
    preprocess id "a\tb" = ["a\tb"] ∧
    tokenizeSpecWhitespace id "a\tb" = ["a", "b"] ∧
    preprocess id "a\tb" ≠ tokenizeSpecWhitespace id "a\tb" := by
  refine ⟨?_, ?_, ?_⟩
  · simp +decide [preprocess, String.split_of_valid, String.toLower,
      String.map_eq]
  · simp +decide [tokenizeSpecWhitespace, String.split_of_valid,
      String.toLower, String.map_eq]
  · simp +decide [preprocess, tokenizeSpecWhitespace, String.split_of_valid,
      String.toLower, String.map_eq]

/-- C9 (amended).  `preprocess` applies the normalization rule, splits
the transformed text on the space character (not on arbitrary
whitespace), lower-cases each piece and discards empty pieces, and, as
a function, is deterministic; the lone-space test the code also
performs is redundant because no space survives the split, so the
result is exactly the spec pipeline with the separator amended to the
space character. -/
theorem C9_amended_tokenize_splits_on_space (rule : String → String)
    (text : String) :
    preprocess rule text = tokenizeSpecSpace rule text := by
  unfold preprocess tokenizeSpecSpace
  apply List.filter_congr
  intro x hx
  obtain ⟨piece, hp, rfl⟩ := List.mem_map.mp hx
  rw [String.split_of_valid] at hp
  obtain ⟨cs, hcs, rfl⟩ := List.mem_map.mp hp
  have hne : String.toLower (String.mk cs) ≠ " " :=
    toLower_piece_ne_space (fun c hc => splitOnP_sep_free _ _ cs hcs c hc)
  simp [hne]

theorem C4_construction_order_not_deterministic :
    ValidOrder ["a", "b"] (corpusTokens id ["a b"]) ∧
    ValidOrder ["b", "a"] (corpusTokens id ["a b"]) ∧
    construct id ["a b"] ["a", "b"] = some mAB ∧
    construct id ["a b"] ["b", "a"] = some mBA ∧
    lookupIndex mAB.index "a" = some 0 ∧
    lookupIndex mBA.index "a" = some 1 ∧
    mAB.index ≠ mBA.index := by
  refine ⟨?_, ?_, construct_eval_AB, construct_eval_BA, ?_, ?_, ?_⟩
  · rw [corpusTokens_AB]; exact ⟨by decide, by decide⟩
  · rw [corpusTokens_AB]; exact ⟨by decide, by decide⟩
  all_goals simp +decide [mAB, mBA, calculate_document_weights, mABcore,
    mBAcore, lookupIndex]

end VSM
